import Mathlib

/-!
Verification of the contextual re-embedding and hybrid retrieval pipeline
of the roofing-saas repository (scripts under `archive/archon-kb-work/`).

The Python scripts are shallowly embedded: text is `String` manipulated
through explicit character-list helpers (Python string slicing, `in`,
`startswith`, `endswith`, `lower` are all code-point based, matching
`List Char` semantics); the external embedding provider is an oracle
`Nat → String → ProviderResult` whose first argument counts provider
invocations (so retry behaviour is observable); the chunk store
(`archon_crawled_pages` joined with `archon_sources`) is a list of
records; SQL `UPDATE`/REST `PATCH` statements become list maps guarded
by a success flag; floats are modelled as rationals.
-/

/-- Character-list substring test: true when `pat` occurs contiguously in the list. -/
def containsSub (pat : List Char) : List Char → Bool
  | [] => pat.isEmpty
  | a :: l => pat.isPrefixOf (a :: l) || containsSub pat l

/-- Python `pat in s` (substring containment). -/
def strHas (s pat : String) : Bool := containsSub pat.data s.data

/-- Python `s.startswith(pat)`; also SQL `LIKE 'pat%'`. -/
def strStarts (s pat : String) : Bool := pat.data.isPrefixOf s.data

/-- Python `s.endswith(pat)`; also the `%.md` tail of SQL `LIKE 'file://%.md'`. -/
def strEnds (s pat : String) : Bool := pat.data.isSuffixOf s.data

/-- Python slice `s[:n]`. -/
def strTake (s : String) (n : Nat) : String := ⟨s.data.take n⟩

/-- SQL `LOWER(s)` / Python `s.lower()`. -/
def strLower (s : String) : String := ⟨s.data.map Char.toLower⟩

/-- Result of one call to the external embedding provider
(`client.embeddings.create`).  The source distinguishes no error kinds (it
catches every exception alike), but the spec's taxonomy names transient and
fatal errors, so both constructors are present to let theorems quantify over
either kind. -/
inductive ProviderResult where
  | ok (v : List ℚ)
  | errTransient (msg : String)
  | errFatal (msg : String)
deriving DecidableEq

/-- Whether a provider call succeeded. -/
def ProviderResult.isOk : ProviderResult → Bool
  | .ok _ => true
  | _ => false

/-- Row of `archon_sources`. -/
structure SourceRec where
  source_id : String
  source_url : String
  source_display_name : String
deriving DecidableEq

/-- Row of `archon_crawled_pages`, joined with its `archon_sources` row.
`content_search_vector` models the Postgres tsvector by recording the text
it was computed from (`to_tsvector` is a fixed deterministic function of its
input, so derivation tracking is the observable content of the field). -/
structure ChunkRec where
  id : Nat
  content : String
  url : String
  chunk_number : Nat
  archon_sources : SourceRec
  embedding : Option (List ℚ)
  content_search_vector : Option String
deriving DecidableEq

/-- `generate_embedding` of `reembed_archon.py` (lines 109-119); the same
function appears verbatim in `fix_embeddings_properly.py` (162-174) and
`reembed_all_project_docs.py` (105-117).  It truncates the input to the
first 8000 characters (`text[:8000]`), makes a single provider call
(invocation index 0), and catches any exception, returning `None`. -/
def generate_embedding (o : Nat → String → ProviderResult) (text : String) :
    Option (List ℚ) :=
  match o 0 (strTake text 8000) with
  | .ok v => some v
  | .errTransient _ => none
  | .errFatal _ => none

/-- `ArchonReEmbedder.create_contextual_content` of `reembed_archon.py`
(lines 88-107). -/
def create_contextual_content (chunk : ChunkRec) : String :=
  let content := chunk.content
  let display_name := chunk.archon_sources.source_display_name
  if strHas display_name "PRD.md" then
    "Project Requirements Document for Tennessee Roofing SaaS Platform: " ++ content
  else if strHas display_name "CLAUDE.md" then
    "Developer Implementation Guide for Roofing Project: " ++ content
  else if strHas display_name "knowledge_base_roofing" then
    "Roofing Industry Technical Knowledge Base: " ++ content
  else if strHas display_name "roofing_industry_apis" then
    "Roofing Industry API Integration Documentation: " ++ content
  else if strHas display_name "TWILIO" then
    "Twilio SMS Implementation Guide for Roofing Project: " ++ content
  else if strHas display_name "ESIGNING" then
    "E-Signature Options for Roofing Contracts: " ++ content
  else
    "Project Documentation: " ++ content

/-- `ArchonReEmbedder.update_embedding` of `reembed_archon.py` (lines
121-136): `UPDATE archon_crawled_pages SET embedding = %s WHERE id = %s`,
committed; the surrounding try/except (rollback on failure) is modelled by
the caller applying this only when the write succeeds. -/
def update_embedding (store : List ChunkRec) (chunk_id : Nat) (embedding : List ℚ) :
    List ChunkRec :=
  store.map fun c => if c.id = chunk_id then { c with embedding := some embedding } else c

/-- Outcome of `ArchonReEmbedder.reembed_project_docs` (lines 166-190):
the updated store, the `success_count`/`error_count` counters, and the
per-chunk error log (each failure is printed together with the chunk being
processed; the log records the chunk id and which step failed). -/
structure BatchReport where
  store : List ChunkRec
  success_count : Nat
  error_count : Nat
  error_log : List (Nat × String)
deriving DecidableEq

/-- The per-chunk loop of `ArchonReEmbedder.reembed_project_docs`
(`reembed_archon.py` lines 169-186): for each chunk, contextualize, embed,
and update; `if embedding and self.update_embedding(...)` counts a success,
anything else counts an error and the loop continues.  `dbOk` tells whether
the database UPDATE for a given chunk id commits (False = rollback). -/
def reembed_batch (o : Nat → String → ProviderResult) (dbOk : Nat → Bool)
    (store : List ChunkRec) : List ChunkRec → BatchReport
  | [] => ⟨store, 0, 0, []⟩
  | chunk :: rest =>
    match generate_embedding o (create_contextual_content chunk) with
    | some embedding =>
      if dbOk chunk.id then
        let r := reembed_batch o dbOk (update_embedding store chunk.id embedding) rest
        { r with success_count := r.success_count + 1 }
      else
        let r := reembed_batch o dbOk store rest
        { r with error_count := r.error_count + 1,
                 error_log := (chunk.id, "Error updating embedding") :: r.error_log }
    | none =>
      let r := reembed_batch o dbOk store rest
      { r with error_count := r.error_count + 1,
               error_log := (chunk.id, "Error generating embedding") :: r.error_log }

/-- Whether both steps (embed, then database update) succeed for a chunk. -/
def stepOk (o : Nat → String → ProviderResult) (dbOk : Nat → Bool) (c : ChunkRec) : Bool :=
  (generate_embedding o (create_contextual_content c)).isSome && dbOk c.id

/-- Net effect of the batch on one stored embedding value: the last
successful write for this chunk id wins; with no successful write the value
is untouched. -/
def writeVal (o : Nat → String → ProviderResult) (dbOk : Nat → Bool) :
    List ChunkRec → Nat → Option (List ℚ) → Option (List ℚ)
  | [], _, v => v
  | c :: rest, k, v =>
    if stepOk o dbOk c && c.id == k then
      writeVal o dbOk rest k (generate_embedding o (create_contextual_content c))
    else
      writeVal o dbOk rest k v

/-- Net effect of the batch on one store entry. -/
def updFun (o : Nat → String → ProviderResult) (dbOk : Nat → Bool)
    (chunks : List ChunkRec) (e : ChunkRec) : ChunkRec :=
  { e with embedding := writeVal o dbOk chunks e.id e.embedding }

/-- Insertion of an element into a list, ordered by a boolean comparison
(used to model SQL `ORDER BY`; deterministic, keyed only on the comparison). -/
def insSorted (le : α → α → Bool) (a : α) : List α → List α
  | [] => [a]
  | b :: l => if le a b then a :: b :: l else b :: insSorted le a l

/-- Insertion sort modelling SQL `ORDER BY`: the output is ordered by `le`
and the relative order of `le`-equivalent rows is inherited from the input
(Postgres leaves it unspecified; this is one concrete refinement). -/
def insSort (le : α → α → Bool) : List α → List α
  | [] => []
  | a :: l => insSorted le a (insSort le l)

/-- Comparison for `ORDER BY s.source_display_name, cp.chunk_number` in
`ArchonReEmbedder.get_project_docs` (`reembed_archon.py` line 84). -/
def docLe (a b : ChunkRec) : Bool :=
  if a.archon_sources.source_display_name = b.archon_sources.source_display_name then
    decide (a.chunk_number ≤ b.chunk_number)
  else
    decide (a.archon_sources.source_display_name < b.archon_sources.source_display_name)

/-- The WHERE clause of `ArchonReEmbedder.get_project_docs`
(`reembed_archon.py` lines 77-83): `source_url LIKE 'file://%.md'` and
`LOWER(source_url)` containing one of `prd`, `claude`, `roofing`,
`knowledge`. -/
def isProjectDoc (c : ChunkRec) : Bool :=
  strStarts c.archon_sources.source_url "file://"
    && strEnds c.archon_sources.source_url ".md"
    && (strHas (strLower c.archon_sources.source_url) "prd"
        || strHas (strLower c.archon_sources.source_url) "claude"
        || strHas (strLower c.archon_sources.source_url) "roofing"
        || strHas (strLower c.archon_sources.source_url) "knowledge")

/-- `ArchonReEmbedder.get_project_docs` (`reembed_archon.py` lines 64-86):
the selector fetch, a filtered, ordered read of the joined store. -/
def get_project_docs (store : List ChunkRec) : List ChunkRec :=
  insSort docLe (store.filter isProjectDoc)

/-- One full run of `ArchonReEmbedder.reembed_project_docs`: fetch the
selector's chunks from the store, then run the per-chunk batch loop over
them; the result is the updated store. -/
def reembed_pass (o : Nat → String → ProviderResult) (dbOk : Nat → Bool)
    (store : List ChunkRec) : List ChunkRec :=
  (reembed_batch o dbOk store (get_project_docs store)).store

/-- Concrete source row used by witness scenarios (its display name matches
none of the contextualization categories). -/
def srcX : SourceRec := ⟨"src_x", "https://example.com/docs", "misc notes"⟩

/-- Concrete chunk used by witness scenarios. -/
def mkChunkX (i : Nat) (content : String) : ChunkRec :=
  ⟨i, content, "https://example.com/docs/p", i, srcX, none, none⟩

/-- Ten concrete chunks for the C1 scenario (ids 1..10). -/
def chunksX : List ChunkRec :=
  [mkChunkX 1 "c1", mkChunkX 2 "c2", mkChunkX 3 "c3", mkChunkX 4 "c4",
   mkChunkX 5 "c5", mkChunkX 6 "c6", mkChunkX 7 "c7", mkChunkX 8 "c8",
   mkChunkX 9 "c9", mkChunkX 10 "c10"]

/-- Provider that returns a non-retryable error exactly for chunk 5's
contextualized content and succeeds on everything else. -/
def oX : Nat → String → ProviderResult := fun _ t =>
  if t = "Project Documentation: c5" then .errFatal "invalid input" else .ok [1]

/-- Database writes always commit in the witness scenarios. -/
def dOk : Nat → Bool := fun _ => true

/-- `create_searchable_content` of `final_fix_rest_api.py` (lines 49-84):
a search-term block is prepended to the chunk's raw content (the script's
own comment: the tsvector cannot be patched over REST, so the content field
itself is rewritten).  The local variable is `search_prefix` in the source. -/
def create_searchable_content (chunk : ChunkRec) : String :=
  let original_content := chunk.content
  let display_name := chunk.archon_sources.source_display_name
  let search_pfx :=
    if strHas display_name "PRD.md" then
      "[SEARCHABLE: PRD Project Requirements Document Tennessee roofing Proline CRM Enzy
        door-knocking Phase 1 Phase 2 Phase 3 Core CRM weeks 1-4 contact management pipeline
        QuickBooks OAuth integration Twilio SMS gamification]

        "
    else if strHas display_name "CLAUDE.md" then
      "[SEARCHABLE: Claude Code developer implementation guide Next.js Supabase
        Tennessee roofing tech stack PWA Twilio QuickBooks Vercel deployment database schema]

        "
    else if strHas display_name "knowledge_base_roofing" then
      "[SEARCHABLE: roofing knowledge base technical CRM field operations
        mobile app photo upload QuickBooks Twilio SMS e-signature reporting Tennessee contractor]

        "
    else if strHas display_name "roofing_industry_apis" then
      "[SEARCHABLE: roofing APIs EagleView Hover Xactimate GAF QuickBooks
        Twilio Google Maps integration documentation Tennessee]

        "
    else ""
  search_pfx ++ original_content

/-- `update_chunk_content` of `final_fix_rest_api.py` (lines 86-100): REST
PATCH of the chunk's `content` field; `ok` is whether the PATCH returned
status 204. -/
def update_chunk_content (ok : Bool) (store : List ChunkRec) (chunk_id : Nat)
    (new_content : String) : List ChunkRec :=
  if ok then
    store.map fun c => if c.id = chunk_id then { c with content := new_content } else c
  else store

/-- Per-chunk database write of `fix_everything`
(`fix_search_properly_final.py` lines 177-204): two UPDATE statements inside
one transaction — `embedding` (from the enhanced content) and
`content_search_vector = to_tsvector('english', enhanced_content)` — then
COMMIT; an exception rolls the transaction back, changing neither field.
`commitOk` is whether the transaction commits. -/
def update_embedding_and_tsvector (commitOk : Bool) (store : List ChunkRec)
    (chunk_id : Nat) (embedding : List ℚ) (enhanced_content : String) :
    List ChunkRec :=
  if commitOk then
    store.map fun c =>
      if c.id = chunk_id then
        { c with embedding := some embedding,
                 content_search_vector := some enhanced_content }
      else c
  else store

/-- `create_AGGRESSIVE_contextual_content` of `fix_embeddings_properly.py`
(lines 58-160). -/
def create_AGGRESSIVE_contextual_content (chunk : ChunkRec) : String :=
  let content := chunk.content
  let display_name := chunk.archon_sources.source_display_name
  if strHas display_name "PRD.md" then
    "
        PROJECT REQUIREMENTS DOCUMENT (PRD) for Tennessee Roofing Company SaaS Platform.

        KEY SEARCH TERMS: PRD, requirements, Phase 1, Phase 2, Phase 3, Phase 4, Phase 5,
        Proline CRM replacement, Enzy app replacement, door knocking, door-to-door sales,
        Tennessee roofing company, local roofing contractor, roofing CRM, roofing software,
        Core CRM, weeks 1-4, contact management, pipeline management, QuickBooks integration,
        OAuth setup, basic lead management, CRUD operations, simple pipeline view,
        financial sync, invoicing, estimates, proposals, contracts, e-signing,
        Twilio SMS, text messaging, call recording, mobile app, PWA, photo upload,
        field operations, crew management, job scheduling, territory management,
        gamification, leaderboards, achievement badges, sales rep tracking,
        AI voice assistant, reporting, analytics, dashboard, KPIs, metrics.

        This document describes ALL requirements and phases for replacing Proline and Enzy.
        Developer: Solo automation agency using Claude Code and no/low-code tools.
        Client: Tennessee-based roofing company with field sales and installation crews.

        ACTUAL CONTENT: " ++ content ++ "
        "
  else if strHas display_name "CLAUDE.md" then
    "
        DEVELOPER IMPLEMENTATION GUIDE - CLAUDE.md - Instructions for Claude Code.

        KEY SEARCH TERMS: Claude Code, developer guide, implementation instructions,
        tech stack, Next.js 14, Supabase, PostgreSQL, Tailwind CSS, shadcn/ui,
        PWA, progressive web app, Twilio integration, QuickBooks API, OpenAI API,
        Resend, SendGrid, email automation, SMS automation, Vercel deployment,
        database schema, contacts table, projects table, activities table,
        Row Level Security, RLS, authentication, auth flow, API patterns,
        Tennessee roofing project, roofing SaaS, CRM development,
        solo developer, automation agency, no-code, low-code, MCP servers,
        Archon integration, dual Supabase architecture, knowledge base,
        project structure, development commands, quality checklist.

        This is THE developer guide for building the Tennessee roofing platform.

        ACTUAL CONTENT: " ++ content ++ "
        "
  else if strHas display_name "knowledge_base_roofing" then
    "
        TECHNICAL KNOWLEDGE BASE for Roofing Industry SaaS Platform Development.

        KEY SEARCH TERMS: roofing knowledge base, technical implementation,
        roofing CRM features, field operations, mobile app development,
        photo upload, offline sync, territory management, route optimization,
        crew scheduling, job management, QuickBooks integration details,
        financial sync, invoice generation, payment processing,
        Twilio SMS implementation, automated text messaging, appointment reminders,
        customer communications, two-way messaging, call recording setup,
        e-signature integration, contract management, proposal generation,
        reporting dashboards, KPI tracking, sales metrics, performance analytics,
        gamification system, achievement system, leaderboard implementation,
        door-to-door sales tracking, canvassing routes, lead capture,
        Tennessee roofing industry, local contractor needs, Proline alternative,
        Enzy replacement, mobile-first design, PWA implementation.

        Complete technical guide for roofing-specific features and integrations.

        ACTUAL CONTENT: " ++ content ++ "
        "
  else if strHas display_name "roofing_industry_apis" then
    "
        ROOFING INDUSTRY API INTEGRATION DOCUMENTATION.

        KEY SEARCH TERMS: roofing APIs, industry integrations, third-party services,
        EagleView API, aerial measurements, roof measurements, property data,
        Hover API, 3D modeling, 3D measurements, visual estimates,
        Xactimate integration, insurance claims, ESX files, estimating,
        GAF API, manufacturer warranties, contractor portal, certifications,
        SRS Distribution API, ABC Supply API, Beacon API, material ordering,
        material delivery tracking, supply chain integration,
        QuickBooks API, accounting integration, financial sync, invoicing API,
        payment processing, accounts receivable, job costing,
        Twilio API, SMS API, voice API, call recording, messaging,
        Google Maps API, geocoding, route optimization, territory mapping,
        weather API integration, job scheduling, crew dispatch,
        photo storage API, damage documentation, before/after photos,
        e-signature API, SignWell, DocuSign, contract signing.

        Complete API documentation for roofing industry integrations.

        ACTUAL CONTENT: " ++ content ++ "
        "
  else
    "
        TENNESSEE ROOFING PROJECT DOCUMENTATION.
        Project to replace Proline CRM and Enzy door-knocking app.
        Roofing company software requirements and implementation.
        " ++ content ++ "
        "

/-- The four source-url patterns of the selector in
`fix_embeddings_properly.py` (lines 37-42), also used by
`reembed_all_project_docs.py` and `final_fix_rest_api.py`. -/
def doc_patterns : List String :=
  ["%PRD.md%", "%CLAUDE.md%", "%knowledge_base_roofing%", "%roofing_industry_apis%"]

/-- `get_project_documents` of `fix_embeddings_properly.py` (lines 26-56)
(the same function appears in `reembed_all_project_docs.py` lines 24-74 and
`final_fix_rest_api.py` lines 25-47): one REST fetch per pattern; a 200
response contributes its chunk rows, any other status code contributes
nothing and leaves no record.  `fetchResp pat` is the decoded body of a 200
response for `pat`, or `none` for a non-200 status. -/
def get_project_documents (fetchResp : String → Option (List ChunkRec)) :
    List String → List ChunkRec
  | [] => []
  | pat :: rest =>
    (match fetchResp pat with
      | some rows => rows
      | none => []) ++ get_project_documents fetchResp rest

/-- The re-embedding loop of `main` in `fix_embeddings_properly.py` (lines
334-359): per fetched chunk, contextualize with the AGGRESSIVE template,
embed, PATCH the embedding; failures are printed with the chunk being
processed, counted in `failed`, and the loop continues. -/
def fix_embeddings_batch (o : Nat → String → ProviderResult) (dbOk : Nat → Bool)
    (store : List ChunkRec) : List ChunkRec → BatchReport
  | [] => ⟨store, 0, 0, []⟩
  | chunk :: rest =>
    match generate_embedding o (create_AGGRESSIVE_contextual_content chunk) with
    | some embedding =>
      if dbOk chunk.id then
        let r := fix_embeddings_batch o dbOk (update_embedding store chunk.id embedding) rest
        { r with success_count := r.success_count + 1 }
      else
        let r := fix_embeddings_batch o dbOk store rest
        { r with error_count := r.error_count + 1,
                 error_log := (chunk.id, "Update failed") :: r.error_log }
    | none =>
      let r := fix_embeddings_batch o dbOk store rest
      { r with error_count := r.error_count + 1,
               error_log := (chunk.id, "Embedding error") :: r.error_log }

/-- RetrievalCandidate row produced by the vector-search CTE of
`enhanced_rag_search` (`archon_reembedding_plan.py` lines 214-241), plus the
`rerank_score` key that `CohereReranker.rerank_results` attaches. -/
structure RC where
  id : Nat
  content : String
  url : String
  source_display_name : String
  source_url : String
  distance : ℚ
  boost_factor : ℚ
  rerank_score : Option ℚ
deriving DecidableEq, Inhabited

/-- `CohereReranker.rerank_results` of `archon_reembedding_plan.py` (lines
152-188).  `rr` is the Cohere rerank endpoint: given the raw query, the
candidate texts and `top_n`, it returns index/score pairs (provider order),
or `none` when the call raises.  An out-of-range index from the provider
would raise inside the same try block, which also falls back to
`documents[:top_n]`. -/
def rerank_results (rr : String → List String → Nat → Option (List (Nat × ℚ)))
    (query : String) (documents : List RC) (top_n : Nat) : List RC :=
  if documents.isEmpty then []
  else
    let doc_texts := documents.map fun d => d.content
    match rr query doc_texts (min top_n documents.length) with
    | some results =>
      if results.all (fun r => decide (r.1 < documents.length)) then
        results.map fun r =>
          { documents.getD r.1 default with rerank_score := some r.2 }
      else documents.take top_n
    | none => documents.take top_n

/-- The vector-search stage of `enhanced_rag_search`
(`archon_reembedding_plan.py` lines 209-241): every chunk with a non-null
embedding becomes a row with its cosine distance to the query embedding
(`dist` models the pgvector operator) and a boost factor of 0.8 for
`file://` sources, 1.0 otherwise; rows are ordered by distance times boost
ascending (the ORDER BY key is that product alone) and limited to
`match_count * 3`. -/
def enhanced_rag_search_candidates (dist : List ℚ → List ℚ → ℚ)
    (query_embedding : List ℚ) (store : List ChunkRec) (match_count : Nat) :
    List RC :=
  let rows := (store.filter fun c => c.embedding.isSome).map fun c =>
    { id := c.id, content := c.content, url := c.url,
      source_display_name := c.archon_sources.source_display_name,
      source_url := c.archon_sources.source_url,
      distance := dist (c.embedding.getD []) query_embedding,
      boost_factor :=
        if strStarts c.archon_sources.source_url "file://" then (8 : ℚ)/10 else 1,
      rerank_score := none : RC }
  (insSort (fun a b => decide (a.distance * a.boost_factor ≤ b.distance * b.boost_factor))
    rows).take (match_count * 3)

/-- `enhanced_rag_search` of `archon_reembedding_plan.py` (lines 192-247):
embed the contextualized query (a direct provider call — an error here
aborts the whole retrieval, modelled as `none`), fetch the boosted candidate
pool, then rerank with the raw query. -/
def enhanced_rag_search (o : Nat → String → ProviderResult)
    (dist : List ℚ → List ℚ → ℚ)
    (rr : String → List String → Nat → Option (List (Nat × ℚ)))
    (store : List ChunkRec) (query : String) (match_count : Nat) :
    Option (List RC) :=
  let contextual_query := "Search for project documentation about: " ++ query
  match o 0 contextual_query with
  | .ok query_embedding =>
    some (rerank_results rr query
      (enhanced_rag_search_candidates dist query_embedding store match_count)
      match_count)
  | .errTransient _ => none
  | .errFatal _ => none

/-- An input string of 8001 characters, one over the hard-coded 8000
character truncation point of `generate_embedding`. -/
def bigA : String := ⟨List.replicate 8001 'a'⟩

/-- Provider whose first call fails with a transient error while every
later call would succeed — distinguishing a retrying client from a
non-retrying one. -/
def oRetryProbe : Nat → String → ProviderResult := fun k _ =>
  if k = 0 then .errTransient "timeout" else .ok [1]

/-- Provider that fails with the same transient error on every call. -/
def oAllFail : Nat → String → ProviderResult := fun _ _ =>
  .errTransient "timeout"

/-- Concrete project-documentation chunk: selected by the re-embedding
selector, raw content `"hello"`, an old embedding, and a lexical vector
derived from the raw content. -/
def chunkC2 : ChunkRec :=
  ⟨1, "hello", "file://docs/PRD.md", 1, ⟨"s1", "file://docs/PRD.md", "PRD.md"⟩,
   some [9], some "hello"⟩

/-- Provider returning the fixed vector [2] for every input. -/
def oC2 : Nat → String → ProviderResult := fun _ _ => .ok [2]

/-- Provider that succeeds with [2] on the first call and fails afterwards
(agrees with `oC2` on call 0 only). -/
def oFirstOk : Nat → String → ProviderResult := fun k _ =>
  if k = 0 then .ok [2] else .errFatal "down"

/-- Distance oracle that assigns every pair of vectors distance 1. -/
def distOne : List ℚ → List ℚ → ℚ := fun _ _ => 1

/-- Rerank endpoint that always fails (timeout/quota). -/
def rrFail : String → List String → Nat → Option (List (Nat × ℚ)) :=
  fun _ _ _ => none

/-- Embedded chunk from a non-file source, id 1. -/
def chunkT1 : ChunkRec := ⟨1, "a", "https://x/1", 1, srcX, some [1], none⟩

/-- Embedded chunk from a non-file source, id 2. -/
def chunkT2 : ChunkRec := ⟨2, "b", "https://x/2", 2, srcX, some [1], none⟩

/-- Embedded chunk from a `file://` source. -/
def chunkF : ChunkRec :=
  ⟨1, "alpha", "file://kb/PRD.md", 1, ⟨"s1", "file://kb/PRD.md", "PRD.md"⟩,
   some [1], none⟩

/-- Provider returning the empty query embedding. -/
def oQ : Nat → String → ProviderResult := fun _ _ => .ok []

/-- The retrieval candidate that `chunkF` becomes under `distOne`. -/
def rcF : RC :=
  ⟨1, "alpha", "file://kb/PRD.md", "PRD.md", "file://kb/PRD.md", 1, (8 : ℚ)/10, none⟩

/-- Fetch oracle for which the `%PRD.md%` pattern returns a non-200 status
and every other pattern succeeds with one chunk. -/
def fetchC10 : String → Option (List ChunkRec) := fun pat =>
  if pat = "%PRD.md%" then none else some [mkChunkX 1 "c1"]

theorem reembed_batch_counts (o : Nat → String → ProviderResult) (dbOk : Nat → Bool)
    (store chunks : List ChunkRec) :
    (reembed_batch o dbOk store chunks).success_count
      + (reembed_batch o dbOk store chunks).error_count = chunks.length := by
  induction chunks generalizing store with
  | nil => simp [reembed_batch]
  | cons c rest ih =>
    cases hg : generate_embedding o (create_contextual_content c) with
    | none =>
      have := ih store
      simp [reembed_batch, hg]
      omega
    | some emb =>
      by_cases hd : dbOk c.id
      · have := ih (update_embedding store c.id emb)
        simp [reembed_batch, hg, hd]
        omega
      · have := ih store
        simp [reembed_batch, hg, hd]
        omega

theorem reembed_batch_error_log (o : Nat → String → ProviderResult) (dbOk : Nat → Bool)
    (store chunks : List ChunkRec) :
    (reembed_batch o dbOk store chunks).error_log.map Prod.fst
      = (chunks.filter fun c => !stepOk o dbOk c).map (fun c => c.id) := by
  induction chunks generalizing store with
  | nil => simp [reembed_batch]
  | cons c rest ih =>
    cases hg : generate_embedding o (create_contextual_content c) with
    | none =>
      have hs : stepOk o dbOk c = false := by simp [stepOk, hg]
      simp [reembed_batch, hg, hs, ih store]
    | some emb =>
      by_cases hd : dbOk c.id
      · have hs : stepOk o dbOk c = true := by simp [stepOk, hg, hd]
        simp [reembed_batch, hg, hd, hs, ih (update_embedding store c.id emb)]
      · have hs : stepOk o dbOk c = false := by simp [stepOk, hg, hd]
        simp [reembed_batch, hg, hd, hs, ih store]

theorem reembed_batch_store (o : Nat → String → ProviderResult) (dbOk : Nat → Bool)
    (store chunks : List ChunkRec) :
    (reembed_batch o dbOk store chunks).store = store.map (updFun o dbOk chunks) := by
  induction chunks generalizing store with
  | nil =>
    have h : (fun e : ChunkRec => updFun o dbOk [] e) = id := by
      funext e
      simp [updFun, writeVal]
    simp [reembed_batch, h]
  | cons c rest ih =>
    cases hg : generate_embedding o (create_contextual_content c) with
    | none =>
      have hs : stepOk o dbOk c = false := by simp [stepOk, hg]
      have h : (fun e => updFun o dbOk (c :: rest) e) = fun e => updFun o dbOk rest e := by
        funext e
        simp [updFun, writeVal, hs]
      simp only [reembed_batch, hg, ih store, h]
    | some emb =>
      by_cases hd : dbOk c.id
      · have hs : stepOk o dbOk c = true := by simp [stepOk, hg, hd]
        simp only [reembed_batch, hg, hd, if_pos, ih (update_embedding store c.id emb)]
        rw [update_embedding, List.map_map]
        apply List.map_congr_left
        intro e _
        by_cases he : e.id = c.id
        · simp only [Function.comp, he, if_pos]
          simp [updFun, writeVal, hs, he, hg]
        · have hne : (c.id == e.id) = false := by
            simp [Ne.symm he]
          simp only [Function.comp, he, if_neg, not_false_iff]
          simp [updFun, writeVal, hs, hne]
      · have hs : stepOk o dbOk c = false := by simp [stepOk, hg, hd]
        have h : (fun e => updFun o dbOk (c :: rest) e) = fun e => updFun o dbOk rest e := by
          funext e
          simp [updFun, writeVal, hs]
        simp only [reembed_batch, hg, hd, if_neg, Bool.false_eq_true, not_false_iff, ih store, h]

theorem writeVal_of_not_mem (o : Nat → String → ProviderResult) (dbOk : Nat → Bool)
    (chunks : List ChunkRec) (k : Nat) (v : Option (List ℚ))
    (h : k ∉ chunks.map fun c => c.id) :
    writeVal o dbOk chunks k v = v := by
  induction chunks with
  | nil => rfl
  | cons c rest ih =>
    simp only [List.map_cons, List.mem_cons, not_or] at h
    have hne : (c.id == k) = false := by simp [Ne.symm h.1]
    simp [writeVal, hne, ih h.2]

theorem writeVal_of_mem_nodup (o : Nat → String → ProviderResult) (dbOk : Nat → Bool)
    (chunks : List ChunkRec) (c : ChunkRec) (v : Option (List ℚ))
    (hnd : (chunks.map fun x => x.id).Nodup) (hc : c ∈ chunks)
    (hok : stepOk o dbOk c = true) :
    writeVal o dbOk chunks c.id v = generate_embedding o (create_contextual_content c) := by
  induction chunks with
  | nil => cases hc
  | cons a rest ih =>
    simp only [List.map_cons, List.nodup_cons] at hnd
    rcases List.mem_cons.mp hc with rfl | hmem
    · simp only [writeVal, hok, beq_self_eq_true, Bool.and_self, if_pos]
      exact writeVal_of_not_mem o dbOk rest c.id _ hnd.1
    · have hne : (a.id == c.id) = false := by
        have : a.id ≠ c.id := fun h => hnd.1 (h ▸ List.mem_map_of_mem (fun x => x.id) hmem)
        simp [this]
      simp [writeVal, hne, ih hnd.2 hmem]

/-- C1: the re-embedding batch processes every chunk independently — a
failure of the embed or update step for one chunk is recorded in the error
log with that chunk's id and counted, and processing continues, so the run
concludes with `success_count + error_count = attempted = n`, the failing
chunks (and only those) listed, and every chunk whose step succeeded having
its stored embedding replaced by the newly generated one. -/
theorem C1_reembed_failure_isolation (o : Nat → String → ProviderResult)
    (dbOk : Nat → Bool) (store chunks : List ChunkRec)
    (hnd : (chunks.map fun c => c.id).Nodup) :
    (reembed_batch o dbOk store chunks).success_count
        + (reembed_batch o dbOk store chunks).error_count = chunks.length
    ∧ (reembed_batch o dbOk store chunks).error_log.map Prod.fst
        = (chunks.filter fun c => !stepOk o dbOk c).map (fun c => c.id)
    ∧ ∀ c ∈ chunks, stepOk o dbOk c = true →
        ∀ e ∈ (reembed_batch o dbOk store chunks).store, e.id = c.id →
          e.embedding = generate_embedding o (create_contextual_content c) := by
  refine ⟨reembed_batch_counts o dbOk store chunks,
          reembed_batch_error_log o dbOk store chunks, ?_⟩
  intro c hc hok e he hid
  rw [reembed_batch_store] at he
  rcases List.mem_map.mp he with ⟨e0, _, rfl⟩
  have hide : e0.id = c.id := hid
  simp only [updFun]
  rw [hide, writeVal_of_mem_nodup o dbOk chunks c _ hnd hc hok]

/-- Witness for C1: ten chunks, a non-retryable provider error on chunk 5
only; the batch reports 9 successes, 1 failure naming chunk 5, and the
other nine chunks' embeddings are updated. -/
theorem C1_reembed_failure_isolation_witness :
    ((chunksX.map fun c => c.id).Nodup)
    ∧ ((reembed_batch oX dOk chunksX chunksX).success_count
        + (reembed_batch oX dOk chunksX chunksX).error_count = chunksX.length
      ∧ (reembed_batch oX dOk chunksX chunksX).error_log.map Prod.fst
          = (chunksX.filter fun c => !stepOk oX dOk c).map (fun c => c.id)
      ∧ ∀ c ∈ chunksX, stepOk oX dOk c = true →
          ∀ e ∈ (reembed_batch oX dOk chunksX chunksX).store, e.id = c.id →
            e.embedding = generate_embedding oX (create_contextual_content c))
    ∧ (reembed_batch oX dOk chunksX chunksX).success_count = 9
    ∧ (reembed_batch oX dOk chunksX chunksX).error_count = 1
    ∧ (reembed_batch oX dOk chunksX chunksX).error_log
        = [(5, "Error generating embedding")]
    ∧ (reembed_batch oX dOk chunksX chunksX).store.map (fun e => e.embedding)
        = [some [1], some [1], some [1], some [1], none,
           some [1], some [1], some [1], some [1], some [1]] :=
  ⟨by decide, C1_reembed_failure_isolation oX dOk chunksX chunksX (by decide),
   by decide, by decide, by decide, by decide⟩

theorem insSorted_map (g : α → α) (le : α → α → Bool)
    (hg : ∀ a b, le (g a) (g b) = le a b) (a : α) (l : List α) :
    insSorted le (g a) (l.map g) = (insSorted le a l).map g := by
  induction l with
  | nil => rfl
  | cons b t ih =>
    simp only [List.map_cons, insSorted, hg]
    by_cases h : le a b
    · simp [h]
    · simp [h, ih]

theorem insSort_map (g : α → α) (le : α → α → Bool)
    (hg : ∀ a b, le (g a) (g b) = le a b) (l : List α) :
    insSort le (l.map g) = (insSort le l).map g := by
  induction l with
  | nil => rfl
  | cons a t ih =>
    simp only [List.map_cons, insSort, ih]
    exact insSorted_map g le hg a (insSort le t)

theorem get_project_docs_map_updFun (o : Nat → String → ProviderResult)
    (dbOk : Nat → Bool) (docs store : List ChunkRec) :
    get_project_docs (store.map (updFun o dbOk docs))
      = (get_project_docs store).map (updFun o dbOk docs) := by
  unfold get_project_docs
  rw [List.filter_map]
  have h1 : (isProjectDoc ∘ updFun o dbOk docs) = isProjectDoc := by
    funext c
    rfl
  rw [h1]
  exact insSort_map (updFun o dbOk docs) docLe (fun a b => rfl) (store.filter isProjectDoc)

theorem writeVal_map_updFun (o : Nat → String → ProviderResult) (dbOk : Nat → Bool)
    (docs0 docs : List ChunkRec) (k : Nat) (v : Option (List ℚ)) :
    writeVal o dbOk (docs.map (updFun o dbOk docs0)) k v = writeVal o dbOk docs k v := by
  induction docs generalizing v with
  | nil => rfl
  | cons c rest ih =>
    have h1 : stepOk o dbOk (updFun o dbOk docs0 c) = stepOk o dbOk c := rfl
    have h2 : (updFun o dbOk docs0 c).id = c.id := rfl
    have h3 : generate_embedding o (create_contextual_content (updFun o dbOk docs0 c))
        = generate_embedding o (create_contextual_content c) := rfl
    simp only [List.map_cons, writeVal, h1, h2, h3]
    by_cases h : (stepOk o dbOk c && c.id == k) = true
    · simp [h, ih]
    · simp [Bool.not_eq_true] at h
      simp [h, ih]

theorem writeVal_of_no_write (o : Nat → String → ProviderResult) (dbOk : Nat → Bool)
    (docs : List ChunkRec) (k : Nat) (v : Option (List ℚ))
    (h : ∀ c ∈ docs, (stepOk o dbOk c && c.id == k) = false) :
    writeVal o dbOk docs k v = v := by
  induction docs with
  | nil => rfl
  | cons c rest ih =>
    have hc := h c (List.mem_cons_self c rest)
    simp only [writeVal, hc, Bool.false_eq_true, if_neg, not_false_iff]
    exact ih fun x hx => h x (List.mem_cons_of_mem c hx)

theorem writeVal_indep (o : Nat → String → ProviderResult) (dbOk : Nat → Bool)
    (docs : List ChunkRec) (k : Nat) (v v' : Option (List ℚ))
    (h : ∃ c ∈ docs, (stepOk o dbOk c && c.id == k) = true) :
    writeVal o dbOk docs k v = writeVal o dbOk docs k v' := by
  induction docs generalizing v v' with
  | nil => rcases h with ⟨c, hc, _⟩; cases hc
  | cons c rest ih =>
    by_cases hw : (stepOk o dbOk c && c.id == k) = true
    · simp [writeVal, hw]
    · rcases h with ⟨x, hx, hxw⟩
      rcases List.mem_cons.mp hx with rfl | hmem
      · exact absurd hxw hw
      · simp only [Bool.not_eq_true] at hw
        simp only [writeVal, hw, Bool.false_eq_true, if_neg, not_false_iff]
        exact ih v v' ⟨x, hmem, hxw⟩

theorem updFun_idem (o : Nat → String → ProviderResult) (dbOk : Nat → Bool)
    (docs : List ChunkRec) (e : ChunkRec) :
    updFun o dbOk docs (updFun o dbOk docs e) = updFun o dbOk docs e := by
  have key : writeVal o dbOk docs e.id (writeVal o dbOk docs e.id e.embedding)
      = writeVal o dbOk docs e.id e.embedding := by
    by_cases h : ∃ c ∈ docs, (stepOk o dbOk c && c.id == e.id) = true
    · exact writeVal_indep o dbOk docs e.id _ e.embedding h
    · push_neg at h
      have h' : ∀ c ∈ docs, (stepOk o dbOk c && c.id == e.id) = false := by
        intro c hc
        exact Bool.not_eq_true _ ▸ (h c hc)
      rw [writeVal_of_no_write o dbOk docs e.id _ h',
          writeVal_of_no_write o dbOk docs e.id _ h']
  show ChunkRec.mk e.id e.content e.url e.chunk_number e.archon_sources
      (writeVal o dbOk docs e.id (writeVal o dbOk docs e.id e.embedding))
      e.content_search_vector
    = ChunkRec.mk e.id e.content e.url e.chunk_number e.archon_sources
      (writeVal o dbOk docs e.id e.embedding) e.content_search_vector
  rw [key]

theorem updFun_map_updFun (o : Nat → String → ProviderResult) (dbOk : Nat → Bool)
    (docs0 docs : List ChunkRec) (x : ChunkRec) :
    updFun o dbOk (docs.map (updFun o dbOk docs0)) x = updFun o dbOk docs x := by
  show ChunkRec.mk x.id x.content x.url x.chunk_number x.archon_sources
      (writeVal o dbOk (docs.map (updFun o dbOk docs0)) x.id x.embedding)
      x.content_search_vector
    = ChunkRec.mk x.id x.content x.url x.chunk_number x.archon_sources
      (writeVal o dbOk docs x.id x.embedding) x.content_search_vector
  rw [writeVal_map_updFun]

/-- One re-embedding pass maps the store with `updFun` (helper). -/
theorem reembed_pass_eq_map (o : Nat → String → ProviderResult) (dbOk : Nat → Bool)
    (store : List ChunkRec) :
    reembed_pass o dbOk store = store.map (updFun o dbOk (get_project_docs store)) :=
  reembed_batch_store o dbOk store (get_project_docs store)

/-- C8: re-running the re-embedding pass over the same selector with an
unchanged (deterministic) provider leaves every chunk in an identical
stored state: each pass fully replaces the selected chunks' embeddings as
a function of their content and source metadata alone, so the pipeline is
idempotent and convergent. -/
theorem C8_reembed_pass_idempotent (o : Nat → String → ProviderResult)
    (dbOk : Nat → Bool) (store : List ChunkRec) :
    reembed_pass o dbOk (reembed_pass o dbOk store) = reembed_pass o dbOk store := by
  rw [reembed_pass_eq_map o dbOk store, reembed_pass_eq_map, get_project_docs_map_updFun,
      List.map_map]
  apply List.map_congr_left
  intro e _
  rw [Function.comp_apply, updFun_map_updFun, updFun_idem]

theorem update_embedding_content (store : List ChunkRec) (cid : Nat) (emb : List ℚ) :
    (update_embedding store cid emb).map (fun e => e.content)
      = store.map fun e => e.content := by
  rw [update_embedding, List.map_map]
  apply List.map_congr_left
  intro e _
  by_cases he : e.id = cid <;> simp [he]

/-- C2 counterexample: `ArchonReEmbedder.update_embedding` writes only the
`embedding` column.  Starting from a chunk whose embedding and lexical
vector both derive from the raw content `"hello"`, one re-embedding pass
replaces the embedding with the provider's vector for the new augmented
text while the lexical vector still derives from `"hello"` — a stable
state in which the two fields reflect different augmentation versions,
contradicting the claimed per-chunk atomic dual-field update. -/
theorem C2_counterexample :
    (reembed_pass oC2 dOk [chunkC2]).map
        (fun e => (e.embedding, e.content_search_vector))
      = [(some [2], some "hello")]
    ∧ chunkC2.embedding = some [9]
    ∧ (some [2] : Option (List ℚ)) ≠ chunkC2.embedding
    ∧ (some "hello" : Option String) ≠ some (create_contextual_content chunkC2) := by
  refine ⟨by decide, rfl, by decide, by decide⟩

/-- C2 amended: the per-chunk writer of `fix_everything`
(`fix_search_properly_final.py`) is atomic — for every store entry either
both `embedding` and `content_search_vector` are replaced together, both
derived from the same enhanced content, or (different id, or rolled-back
transaction) neither changes; but the writer of `reembed_archon.py` updates
only the embedding: after any of its passes every chunk's lexical vector is
unchanged. -/
theorem C2_amended_index_write_paths (ok : Bool) (store : List ChunkRec)
    (chunk_id : Nat) (emb : List ℚ) (enhanced : String)
    (o : Nat → String → ProviderResult) (dbOk : Nat → Bool) (st : List ChunkRec) :
    (update_embedding_and_tsvector ok store chunk_id emb enhanced).map
        (fun e => (e.embedding, e.content_search_vector))
      = store.map (fun e =>
          if ok && e.id == chunk_id then (some emb, some enhanced)
          else (e.embedding, e.content_search_vector))
    ∧ (reembed_pass o dbOk st).map (fun e => e.content_search_vector)
        = st.map fun e => e.content_search_vector := by
  constructor
  · cases ok
    · simp [update_embedding_and_tsvector]
    · simp only [update_embedding_and_tsvector, if_pos, List.map_map, Bool.true_and]
      apply List.map_congr_left
      intro e _
      by_cases he : e.id = chunk_id
      · simp [he]
      · simp [he]
  · rw [reembed_pass_eq_map, List.map_map]
    apply List.map_congr_left
    intro e _
    rfl

/-- C3 counterexample: `update_chunk_content` of `final_fix_rest_api.py`
overwrites the chunk's raw content with the search-prefixed text produced
by `create_searchable_content` — after the script runs, the stored content
of a PRD chunk no longer equals its raw content and starts with the
`[SEARCHABLE:` augmentation block. -/
theorem C3_counterexample :
    (update_chunk_content true [chunkC2] 1 (create_searchable_content chunkC2)).map
        (fun e => e.content)
      ≠ [chunkC2].map (fun e => e.content)
    ∧ ((update_chunk_content true [chunkC2] 1 (create_searchable_content chunkC2)).map
        fun e => strStarts e.content "[SEARCHABLE:") = [true] := by
  exact ⟨by decide, by decide⟩

/-- C3 amended: the embedding-updating operations of the pipeline
(`reembed_archon`'s pass, `fix_search_properly_final`'s dual-field writer,
`fix_embeddings_properly`'s batch, and the raw `UPDATE ... SET embedding`)
never modify any chunk's raw content — contextualized text feeds only the
embedding and lexical-vector fields; the separate `final_fix_rest_api.py`
script, however, deliberately writes prefixed content back (see the
counterexample). -/
theorem C3_amended_content_preserved (o : Nat → String → ProviderResult)
    (dbOk : Nat → Bool) (st : List ChunkRec) (ok : Bool) (store : List ChunkRec)
    (chunk_id : Nat) (emb : List ℚ) (enhanced : String)
    (store2 : List ChunkRec) (cid2 : Nat) (emb2 : List ℚ)
    (chunks : List ChunkRec) :
    (reembed_pass o dbOk st).map (fun e => e.content) = st.map (fun e => e.content)
    ∧ (update_embedding_and_tsvector ok store chunk_id emb enhanced).map
        (fun e => e.content) = store.map (fun e => e.content)
    ∧ (update_embedding store2 cid2 emb2).map (fun e => e.content)
        = store2.map (fun e => e.content)
    ∧ (fix_embeddings_batch o dbOk store2 chunks).store.map (fun e => e.content)
        = store2.map (fun e => e.content) := by
  refine ⟨?_, ?_, update_embedding_content store2 cid2 emb2, ?_⟩
  · rw [reembed_pass_eq_map, List.map_map]
    apply List.map_congr_left
    intro e _
    rfl
  · cases ok
    · simp [update_embedding_and_tsvector]
    · simp only [update_embedding_and_tsvector, if_pos, List.map_map]
      apply List.map_congr_left
      intro e _
      by_cases he : e.id = chunk_id <;> simp [he]
  · induction chunks generalizing store2 with
    | nil => simp [fix_embeddings_batch]
    | cons c rest ih =>
      cases hg : generate_embedding o (create_AGGRESSIVE_contextual_content c) with
      | none => simp [fix_embeddings_batch, hg, ih store2]
      | some emb3 =>
        by_cases hd : dbOk c.id
        · simp only [fix_embeddings_batch, hg, hd, if_pos]
          rw [ih (update_embedding store2 c.id emb3), update_embedding_content]
        · simp [fix_embeddings_batch, hg, hd, ih store2]

/-- C4 counterexample: an input of 8001 characters (exceeding the 8000
character cap) is not rejected — `generate_embedding` succeeds by silently
truncating, so no `InputTooLong` error exists in the Embedding Generator. -/
theorem C4_counterexample :
    8000 < bigA.length
    ∧ generate_embedding (fun _ _ => ProviderResult.ok []) bigA = some [] := by
  constructor
  · have h : bigA.length = 8001 := by
      show (List.replicate 8001 'a').length = 8001
      rw [List.length_replicate]
    omega
  · rfl

/-- C4 amended: `generate_embedding` silently truncates: its result is
determined entirely by the provider's answer to the first 8000 characters
of the input, and whenever that (truncated) call succeeds the function
returns the vector — no input length is ever rejected before the call. -/
theorem C4_amended_silent_truncation (o o' : Nat → String → ProviderResult)
    (t : String) :
    ((o 0 (strTake t 8000) = o' 0 (strTake t 8000)) →
      generate_embedding o t = generate_embedding o' t)
    ∧ ∀ v : List ℚ, o 0 (strTake t 8000) = .ok v → generate_embedding o t = some v := by
  constructor
  · intro h
    unfold generate_embedding
    rw [h]
  · intro v hv
    unfold generate_embedding
    rw [hv]

/-- Witness for C4 amended, at the 8001-character input. -/
theorem C4_amended_silent_truncation_witness :
    (oC2 0 (strTake bigA 8000) = oFirstOk 0 (strTake bigA 8000))
    ∧ generate_embedding oC2 bigA = generate_embedding oFirstOk bigA
    ∧ oC2 0 (strTake bigA 8000) = .ok [2]
    ∧ generate_embedding oC2 bigA = some [2] :=
  ⟨rfl, (C4_amended_silent_truncation oC2 oFirstOk bigA).1 rfl, rfl,
   (C4_amended_silent_truncation oC2 oFirstOk bigA).2 [2] rfl⟩

/-- C5 counterexample: a transient provider error on the first call makes
`generate_embedding` return `None` even though the very next attempt would
have succeeded — so transient errors are not retried (any policy with at
least two attempts would return the vector), and the failure carries no
error kind or message. -/
theorem C5_counterexample :
    generate_embedding oRetryProbe "hello" = none
    ∧ oRetryProbe 1 "hello" = .ok [1] :=
  ⟨rfl, rfl⟩

/-- C5 amended: `generate_embedding` makes exactly one provider call — its
result depends only on the provider's first response — and any error,
transient or fatal alike, is caught and collapsed to `None` immediately
(no retry, no backoff, no propagated error kind/message); rate control is a
fixed post-call sleep in the orchestrator loop, not part of this function. -/
theorem C5_amended_no_retry_no_error_value (o o' : Nat → String → ProviderResult)
    (t msg : String) :
    ((∀ s, o 0 s = o' 0 s) → generate_embedding o t = generate_embedding o' t)
    ∧ (o 0 (strTake t 8000) = .errTransient msg → generate_embedding o t = none)
    ∧ (o 0 (strTake t 8000) = .errFatal msg → generate_embedding o t = none) := by
  refine ⟨?_, ?_, ?_⟩
  · intro h
    unfold generate_embedding
    rw [h]
  · intro h
    unfold generate_embedding
    rw [h]
  · intro h
    unfold generate_embedding
    rw [h]

/-- Witness for C5 amended: the probe provider and the always-failing
provider agree on the first call, so the function cannot distinguish them. -/
theorem C5_amended_no_retry_witness :
    (∀ s, oRetryProbe 0 s = oAllFail 0 s)
    ∧ generate_embedding oRetryProbe "q" = generate_embedding oAllFail "q"
    ∧ oRetryProbe 0 (strTake "q" 8000) = .errTransient "timeout"
    ∧ generate_embedding oRetryProbe "q" = none :=
  ⟨fun _ => rfl,
   (C5_amended_no_retry_no_error_value oRetryProbe oAllFail "q" "timeout").1 fun _ => rfl,
   rfl,
   (C5_amended_no_retry_no_error_value oRetryProbe oAllFail "q" "timeout").2.1 rfl⟩

theorem length_insSorted (le : α → α → Bool) (a : α) (l : List α) :
    (insSorted le a l).length = l.length + 1 := by
  induction l with
  | nil => rfl
  | cons b t ih => by_cases h : le a b <;> simp [insSorted, h, ih]

theorem length_insSort (le : α → α → Bool) (l : List α) :
    (insSort le l).length = l.length := by
  induction l with
  | nil => rfl
  | cons a t ih => simp [insSort, length_insSorted, ih]

theorem mem_insSorted (le : α → α → Bool) (a x : α) (l : List α) :
    x ∈ insSorted le a l ↔ x = a ∨ x ∈ l := by
  induction l with
  | nil => simp [insSorted]
  | cons b t ih =>
    by_cases h : le a b
    · simp [insSorted, h]
    · simp [insSorted, h, ih]
      tauto

theorem mem_insSort (le : α → α → Bool) (x : α) (l : List α) :
    x ∈ insSort le l ↔ x ∈ l := by
  induction l with
  | nil => simp [insSort]
  | cons a t ih => simp [insSort, mem_insSorted, ih]

theorem pairwise_insSorted (le : α → α → Bool) (R : α → α → Prop)
    (hle : ∀ x y, le x y = true → R x y)
    (hnle : ∀ x y, le x y = false → R y x)
    (htrans : ∀ x y z, R x y → R y z → R x z)
    (a : α) (l : List α) (h : l.Pairwise R) :
    (insSorted le a l).Pairwise R := by
  induction l with
  | nil => simp [insSorted]
  | cons b t ih =>
    rcases List.pairwise_cons.mp h with ⟨hb, ht⟩
    by_cases hab : le a b
    · rw [insSorted, if_pos hab]
      refine List.pairwise_cons.mpr ⟨?_, h⟩
      intro x hx
      rcases List.mem_cons.mp hx with rfl | hxt
      · exact hle a x hab
      · exact htrans a b x (hle a b hab) (hb x hxt)
    · rw [insSorted, if_neg hab]
      refine List.pairwise_cons.mpr ⟨?_, ih ht⟩
      intro x hx
      rcases (mem_insSorted le a x t).mp hx with rfl | hxt
      · exact hnle x b (Bool.not_eq_true _ ▸ hab)
      · exact hb x hxt

theorem pairwise_insSort (le : α → α → Bool) (R : α → α → Prop)
    (hle : ∀ x y, le x y = true → R x y)
    (hnle : ∀ x y, le x y = false → R y x)
    (htrans : ∀ x y z, R x y → R y z → R x z)
    (l : List α) :
    (insSort le l).Pairwise R := by
  induction l with
  | nil => simp [insSort]
  | cons a t ih => exact pairwise_insSorted le R hle hnle htrans a (insSort le t) ih

/-- C6: when the rerank provider call fails, `rerank_results` returns the
first `top_n` candidates of the input order unchanged — never an error, and
never an empty list when candidates existed and at least one was requested;
an empty candidate list yields the empty list for every provider (the
provider is irrelevant: it is not consulted). -/
theorem C6_rerank_graceful_degradation
    (rr : String → List String → Nat → Option (List (Nat × ℚ)))
    (query : String) (documents : List RC) (top_n : Nat)
    (hfail : rr query (documents.map fun d => d.content) (min top_n documents.length)
      = none) :
    rerank_results rr query documents top_n = documents.take top_n
    ∧ (documents ≠ [] → 1 ≤ top_n → rerank_results rr query documents top_n ≠ [])
    ∧ ∀ rr', rerank_results rr' query ([] : List RC) top_n = [] := by
  have hmain : rerank_results rr query documents top_n = documents.take top_n := by
    cases hd : documents with
    | nil => simp [rerank_results]
    | cons a t =>
      rw [← hd]
      have hne : documents.isEmpty = false := by rw [hd]; rfl
      simp only [rerank_results, hne, Bool.false_eq_true, if_neg, not_false_iff, hfail]
  refine ⟨hmain, ?_, ?_⟩
  · intro h1 h2
    rw [hmain]
    intro hcontra
    rcases List.take_eq_nil_iff.mp hcontra with h | h
    · omega
    · exact h1 h
  · intro rr'
    rfl

/-- Witness for C6 at a failing provider and a one-candidate list. -/
theorem C6_rerank_graceful_degradation_witness :
    rrFail "q" ([rcF].map fun d => d.content) (min 1 [rcF].length) = none
    ∧ (rerank_results rrFail "q" [rcF] 1 = [rcF].take 1
      ∧ ([rcF] ≠ [] → 1 ≤ 1 → rerank_results rrFail "q" [rcF] 1 ≠ [])
      ∧ ∀ rr', rerank_results rr' "q" ([] : List RC) 1 = []) :=
  ⟨rfl, C6_rerank_graceful_degradation rrFail "q" [rcF] 1 rfl⟩

/-- C7 counterexample: the ORDER BY key of the candidate query is the
boosted distance alone — there is no tie-break on the chunk identifier.
Two candidates from the same source class at the same distance have equal
keys, and the pool keeps them in join order (ids 2 then 1), not identifier
order, so the claimed id-tie-break determinism does not hold. -/
theorem C7_counterexample :
    (enhanced_rag_search_candidates distOne [] [chunkT2, chunkT1] 1).map (fun r => r.id)
      = [2, 1]
    ∧ ((enhanced_rag_search_candidates distOne [] [chunkT2, chunkT1] 1).map
        fun r => r.distance) = [1, 1]
    ∧ ((enhanced_rag_search_candidates distOne [] [chunkT2, chunkT1] 1).map
        fun r => r.boost_factor) = [1, 1] := by
  have hsx : strStarts srcX.source_url "file://" = false := by decide
  have h11 : ((1 : ℚ) * 1 ≤ 1 * 1) := le_refl _
  refine ⟨?_, ?_, ?_⟩ <;>
    simp [enhanced_rag_search_candidates, chunkT1, chunkT2, insSort, insSorted,
      distOne, hsx, h11, List.take_of_length_le]

/-- C7 amended: the candidate stage over-fetches `match_count * 3` rows
(capped by the number of embedded chunks), ordered ascending by raw
distance times the per-class boost weight (0.8 for `file://` sources, 1
otherwise); at equal positive raw distance the boosted class ranks first;
but ties in the boosted key have no identifier tie-break (see the
counterexample). -/
theorem C7_amended_boosted_ordering (dist : List ℚ → List ℚ → ℚ)
    (query_embedding : List ℚ) (store : List ChunkRec) (match_count : Nat) :
    (enhanced_rag_search_candidates dist query_embedding store match_count).length
        = min (match_count * 3) ((store.filter fun c => c.embedding.isSome).length)
    ∧ (enhanced_rag_search_candidates dist query_embedding store match_count).Pairwise
        (fun a b => a.distance * a.boost_factor ≤ b.distance * b.boost_factor)
    ∧ ∀ (c1 c2 : ChunkRec) (d : ℚ) (k : Nat),
        c1.embedding.isSome = true → c2.embedding.isSome = true →
        dist (c1.embedding.getD []) query_embedding = d →
        dist (c2.embedding.getD []) query_embedding = d →
        0 < d →
        strStarts c1.archon_sources.source_url "file://" = true →
        strStarts c2.archon_sources.source_url "file://" = false →
        1 ≤ k →
        (enhanced_rag_search_candidates dist query_embedding [c2, c1] k).map
          (fun r => r.id) = [c1.id, c2.id] := by
  refine ⟨?_, ?_, ?_⟩
  · simp [enhanced_rag_search_candidates, List.length_take, length_insSort]
  · apply List.Pairwise.sublist (List.take_sublist _ _)
    apply pairwise_insSort
    · intro x y h
      exact of_decide_eq_true h
    · intro x y h
      exact le_of_not_le (of_decide_eq_false h)
    · intro x y z hxy hyz
      exact le_trans hxy hyz
  · intro c1 c2 d k h1 h2 hd1 hd2 hdpos hb1 hb2 hk
    have hfilter : ([c2, c1].filter fun c => c.embedding.isSome) = [c2, c1] := by
      simp [List.filter, h1, h2]
    have hcond : ¬ (d ≤ d * ((8 : ℚ)/10)) := by nlinarith
    simp [enhanced_rag_search_candidates, hfilter, insSort, insSorted, hd1, hd2, hb1, hb2]
    rw [if_neg hcond]
    rw [List.map_cons, List.map_cons, List.map_nil]
    rw [List.take_of_length_le (by simp; omega)]

/-- Witness for the boost-instance part of the C7 amended theorem: a
`file://` chunk and a non-file chunk at the same positive distance; the
file chunk ranks first even though it came second in join order. -/
theorem C7_amended_boosted_ordering_witness :
    chunkF.embedding.isSome = true
    ∧ chunkT2.embedding.isSome = true
    ∧ distOne (chunkF.embedding.getD []) [] = 1
    ∧ distOne (chunkT2.embedding.getD []) [] = 1
    ∧ (0 : ℚ) < 1
    ∧ strStarts chunkF.archon_sources.source_url "file://" = true
    ∧ strStarts chunkT2.archon_sources.source_url "file://" = false
    ∧ 1 ≤ 1
    ∧ (enhanced_rag_search_candidates distOne [] [chunkT2, chunkF] 1).map
        (fun r => r.id) = [chunkF.id, chunkT2.id] :=
  ⟨by decide, by decide, rfl, rfl, by norm_num, by decide, by decide, le_refl 1,
   (C7_amended_boosted_ordering distOne [] [] 0).2.2 chunkF chunkT2 1 1
     (by decide) (by decide) rfl rfl (by norm_num) (by decide) (by decide) (le_refl 1)⟩

theorem rerank_results_mem (rr : String → List String → Nat → Option (List (Nat × ℚ)))
    (query : String) (documents : List RC) (top_n : Nat) :
    ∀ x ∈ rerank_results rr query documents top_n, ∃ d0 ∈ documents, x.id = d0.id := by
  intro x hx
  simp only [rerank_results] at hx
  by_cases hd : documents.isEmpty = true
  · rw [if_pos hd] at hx
    cases hx
  · rw [if_neg hd] at hx
    cases hrr : rr query (documents.map fun d => d.content) (min top_n documents.length) with
    | none =>
      rw [hrr] at hx
      exact ⟨x, List.take_subset _ _ hx, rfl⟩
    | some results =>
      rw [hrr] at hx
      have hx2 : x ∈ (if (results.all fun r => decide (r.1 < documents.length)) = true
          then results.map fun r =>
            { documents.getD r.1 default with rerank_score := some r.2 }
          else documents.take top_n) := hx
      by_cases hval : (results.all fun r => decide (r.1 < documents.length)) = true
      · rw [if_pos hval] at hx2
        rcases List.mem_map.mp hx2 with ⟨r, hr, rfl⟩
        have hlt : r.1 < documents.length :=
          of_decide_eq_true (List.all_eq_true.mp hval r hr)
        refine ⟨documents.getD r.1 default, ?_, rfl⟩
        rw [List.getD_eq_getElem?_getD, List.getElem?_eq_getElem hlt]
        exact List.getElem_mem hlt
      · rw [if_neg hval] at hx2
        exact ⟨x, List.take_subset _ _ hx2, rfl⟩

theorem enhanced_rag_search_candidates_mem (dist : List ℚ → List ℚ → ℚ)
    (query_embedding : List ℚ) (store : List ChunkRec) (match_count : Nat) :
    ∀ r ∈ enhanced_rag_search_candidates dist query_embedding store match_count,
      ∃ c ∈ store, c.id = r.id ∧ c.embedding.isSome = true := by
  intro r hr
  simp only [enhanced_rag_search_candidates] at hr
  have hr2 := List.take_subset _ _ hr
  rw [mem_insSort] at hr2
  rcases List.mem_map.mp hr2 with ⟨c, hc, rfl⟩
  have hcf := List.mem_filter.mp hc
  exact ⟨c, hcf.1, rfl, hcf.2⟩

/-- C9: every candidate in a successful `enhanced_rag_search` result comes
from a stored chunk with a non-null embedding — the SQL filters
`cp.embedding IS NOT NULL`, so never-embedded chunks are invisible to
ranking, boosting, reranking, and every returned list. -/
theorem C9_retrieval_only_embedded_chunks (o : Nat → String → ProviderResult)
    (dist : List ℚ → List ℚ → ℚ)
    (rr : String → List String → Nat → Option (List (Nat × ℚ)))
    (store : List ChunkRec) (query : String) (match_count : Nat) (res : List RC)
    (hres : enhanced_rag_search o dist rr store query match_count = some res) :
    ∀ rc ∈ res, ∃ c ∈ store, c.id = rc.id ∧ c.embedding.isSome = true := by
  intro rc hrc
  simp only [enhanced_rag_search] at hres
  cases ho : o 0 ("Search for project documentation about: " ++ query) with
  | ok qe =>
    rw [ho] at hres
    have hres2 : rerank_results rr query
        (enhanced_rag_search_candidates dist qe store match_count) match_count = res :=
      Option.some.inj hres
    rcases rerank_results_mem rr query _ match_count rc (hres2 ▸ hrc) with ⟨d0, hd0, hid⟩
    rcases enhanced_rag_search_candidates_mem dist qe store match_count d0 hd0
      with ⟨c, hc, hcid, hemb⟩
    exact ⟨c, hc, hcid.trans hid.symm, hemb⟩
  | errTransient m =>
    rw [ho] at hres
    cases hres
  | errFatal m =>
    rw [ho] at hres
    cases hres

/-- Witness for C9: a one-chunk store whose chunk is embedded; the search
succeeds and its single candidate traces back to that chunk. -/
theorem C9_retrieval_only_embedded_chunks_witness :
    enhanced_rag_search oQ distOne rrFail [chunkF] "q" 1 = some [rcF]
    ∧ rcF ∈ [rcF]
    ∧ ∃ c ∈ [chunkF], c.id = rcF.id ∧ c.embedding.isSome = true :=
  ⟨rfl, List.mem_singleton.mpr rfl,
   C9_retrieval_only_embedded_chunks oQ distOne rrFail [chunkF] "q" 1 [rcF] rfl rcF
     (List.mem_singleton.mpr rfl)⟩

theorem fix_embeddings_batch_counts (o : Nat → String → ProviderResult)
    (dbOk : Nat → Bool) (store chunks : List ChunkRec) :
    (fix_embeddings_batch o dbOk store chunks).success_count
      + (fix_embeddings_batch o dbOk store chunks).error_count = chunks.length := by
  induction chunks generalizing store with
  | nil => simp [fix_embeddings_batch]
  | cons c rest ih =>
    cases hg : generate_embedding o (create_AGGRESSIVE_contextual_content c) with
    | none =>
      have := ih store
      simp [fix_embeddings_batch, hg]
      omega
    | some emb =>
      by_cases hd : dbOk c.id
      · have := ih (update_embedding store c.id emb)
        simp [fix_embeddings_batch, hg, hd]
        omega
      · have := ih store
        simp [fix_embeddings_batch, hg, hd]
        omega

/-- C10: when the fetch for one pattern of the selector returns a non-200
status, that pattern's chunks are silently absent: the fetched batch equals
the batch for the selector without that pattern, the whole run (store,
counters, error log) is identical to a run that never had the pattern, and
the final counters cover only the successfully fetched chunks. -/
theorem C10_failed_pattern_silently_omitted
    (f : String → Option (List ChunkRec)) (pats1 pats2 : List String) (pat : String)
    (o : Nat → String → ProviderResult) (dbOk : Nat → Bool) (store : List ChunkRec)
    (hf : f pat = none) :
    get_project_documents f (pats1 ++ pat :: pats2)
        = get_project_documents f (pats1 ++ pats2)
    ∧ fix_embeddings_batch o dbOk store (get_project_documents f (pats1 ++ pat :: pats2))
        = fix_embeddings_batch o dbOk store (get_project_documents f (pats1 ++ pats2))
    ∧ (fix_embeddings_batch o dbOk store
          (get_project_documents f (pats1 ++ pat :: pats2))).success_count
        + (fix_embeddings_batch o dbOk store
          (get_project_documents f (pats1 ++ pat :: pats2))).error_count
        = (get_project_documents f (pats1 ++ pats2)).length := by
  have h1 : get_project_documents f (pats1 ++ pat :: pats2)
      = get_project_documents f (pats1 ++ pats2) := by
    induction pats1 with
    | nil => simp [get_project_documents, hf]
    | cons p ps ih => simp [get_project_documents, ih]
  refine ⟨h1, by rw [h1], ?_⟩
  rw [h1]
  exact fix_embeddings_batch_counts o dbOk store _

/-- Witness for C10: the `%PRD.md%` fetch fails, the other three patterns
each return one chunk; the run proceeds over exactly those three chunks. -/
theorem C10_failed_pattern_silently_omitted_witness :
    fetchC10 "%PRD.md%" = none
    ∧ (get_project_documents fetchC10
          ([] ++ "%PRD.md%" :: ["%CLAUDE.md%", "%knowledge_base_roofing%",
            "%roofing_industry_apis%"])
        = get_project_documents fetchC10
          ([] ++ ["%CLAUDE.md%", "%knowledge_base_roofing%", "%roofing_industry_apis%"])
      ∧ fix_embeddings_batch oC2 dOk []
          (get_project_documents fetchC10
            ([] ++ "%PRD.md%" :: ["%CLAUDE.md%", "%knowledge_base_roofing%",
              "%roofing_industry_apis%"]))
        = fix_embeddings_batch oC2 dOk []
          (get_project_documents fetchC10
            ([] ++ ["%CLAUDE.md%", "%knowledge_base_roofing%",
              "%roofing_industry_apis%"]))
      ∧ (fix_embeddings_batch oC2 dOk []
            (get_project_documents fetchC10
              ([] ++ "%PRD.md%" :: ["%CLAUDE.md%", "%knowledge_base_roofing%",
                "%roofing_industry_apis%"]))).success_count
          + (fix_embeddings_batch oC2 dOk []
            (get_project_documents fetchC10
              ([] ++ "%PRD.md%" :: ["%CLAUDE.md%", "%knowledge_base_roofing%",
                "%roofing_industry_apis%"]))).error_count
          = (get_project_documents fetchC10
              ([] ++ ["%CLAUDE.md%", "%knowledge_base_roofing%",
                "%roofing_industry_apis%"])).length) :=
  ⟨by decide,
   C10_failed_pattern_silently_omitted fetchC10 []
     ["%CLAUDE.md%", "%knowledge_base_roofing%", "%roofing_industry_apis%"]
     "%PRD.md%" oC2 dOk [] (by decide)⟩
